import Mathlib

/- Formal verification of the ETF trading assistant's core engine.

   Shallow embedding conventions:
   * JS numbers (prices, amounts, rates) are modelled as rationals.
   * Dates are modelled as integer day numbers; day 0 is a Sunday, so
     the JS getDay() encoding (0 = Sunday .. 6 = Saturday) is day % 7.
   * A thrown JS error is modelled as an Except.error result paired with
     the pre-call state (the code throws before any mutation).
   * The Supabase persistence layer, DOM updates and console logging are
     I/O glue outside the verified core; the pure state transitions they
     persist are modelled directly. -/

namespace ETFApp

/-- Utils.calculatePercentageChange: ((newValue - oldValue) / oldValue) * 100,
    returning 0 when oldValue is 0. -/
def calculatePercentageChange (oldValue newValue : ℚ) : ℚ :=
  if oldValue = 0 then 0 else (newValue - oldValue) / oldValue * 100

/-- Utils.calculateDeviation: ((cmp - dma) / dma) * 100, returning 0 when dma is 0. -/
def calculateDeviation (cmp dma : ℚ) : ℚ :=
  if dma = 0 then 0 else (cmp - dma) / dma * 100

/-- TradingStrategy.config: maxRankToConsider, averagingLossThreshold,
    profitThreshold, defaultQuantity. -/
structure StrategyConfig where
  maxRankToConsider : ℕ
  averagingLossThreshold : ℚ
  profitThreshold : ℚ
  defaultQuantity : ℤ

/-- The constructor defaults: 5, -2.5, 6.0, 1. -/
def defaultConfig : StrategyConfig :=
  { maxRankToConsider := 5
    averagingLossThreshold := -(5/2)
    profitThreshold := 6
    defaultQuantity := 1 }

/-- BudgetManager.config when a budget is configured (the budget_config row). -/
structure BudgetConfig where
  totalBudget : ℚ
  dailyAmount : ℚ
  startDate : ℤ
  usedAmount : ℚ
  reinvestedProfit : ℚ

/-- BudgetManager state: this.config is null (Unconfigured) or a record. -/
abbrev BudgetState := Option BudgetConfig

/-- The error kinds thrown by BudgetManager (the JS code throws Error with a
    message; the messages are classified per the error-handling design). -/
inductive BudgetError where
  | validation
  | policy
  | insufficientBudget
  | noConfig

/-- BudgetManager.getAvailableAmount: 0 when unconfigured, else
    totalBudget - usedAmount + reinvestedProfit. -/
def getAvailableAmount : BudgetState → ℚ
  | none => 0
  | some c => c.totalBudget - c.usedAmount + c.reinvestedProfit

/-- BudgetManager.getDailyAmount: 0 when unconfigured. -/
def getDailyAmount : BudgetState → ℚ
  | none => 0
  | some c => c.dailyAmount

/-- BudgetManager.getTotalBudget: 0 when unconfigured. -/
def getTotalBudget : BudgetState → ℚ
  | none => 0
  | some c => c.totalBudget

/-- BudgetManager.getUsedAmount: 0 when unconfigured. -/
def getUsedAmount : BudgetState → ℚ
  | none => 0
  | some c => c.usedAmount

/-- BudgetManager.getReinvestedProfit: 0 when unconfigured. -/
def getReinvestedProfit : BudgetState → ℚ
  | none => 0
  | some c => c.reinvestedProfit

/-- BudgetManager.setBudget: rejects totalBudget < 5000 (the JS also rejects a
    falsy totalBudget, subsumed by the minimum check) and a missing start date;
    otherwise installs a fresh config with dailyAmount = totalBudget / 50 and
    zero used/reinvested amounts.  The old state is discarded. -/
def setBudget (totalBudget : ℚ) (startDate : Option ℤ) : Except BudgetError BudgetState :=
  if totalBudget < 5000 then .error .validation
  else
    match startDate with
    | none => .error .validation
    | some d =>
        .ok (some { totalBudget := totalBudget
                    dailyAmount := totalBudget / 50
                    startDate := d
                    usedAmount := 0
                    reinvestedProfit := 0 })

/-- Day-of-week in the JS Date.getDay encoding: 0 = Sunday .. 6 = Saturday
    (day 0 of the integer calendar is a Sunday). -/
def getDay (d : ℤ) : ℤ := d % 7

/-- A weekday check mirroring getDay() !== 0 && getDay() !== 6. -/
def isWeekday (d : ℤ) : Prop := getDay d ≠ 0 ∧ getDay d ≠ 6

instance (d : ℤ) : Decidable (isWeekday d) := by
  unfold isWeekday
  infer_instance

/-- The while loop of BudgetManager.calculateDaysCompleted: walk one calendar
    day at a time from the current date while it is at most today and fewer
    than 50 trading days have been counted, counting only weekdays. -/
def daysCompletedLoop (current today : ℤ) (acc : ℕ) : ℕ :=
  if h : current ≤ today ∧ acc < 50 then
    daysCompletedLoop (current + 1) today (if isWeekday current then acc + 1 else acc)
  else acc
termination_by (today + 1 - current).toNat
decreasing_by omega

/-- BudgetManager.calculateDaysCompleted: 0 when the start date is in the
    future, else the weekday count from start through today, capped at 50. -/
def calculateDaysCompleted (startDate today : ℤ) : ℕ :=
  if startDate > today then 0
  else min (daysCompletedLoop startDate today 0) 50

/-- BudgetManager.getRemainingDays: 50 when unconfigured, else
    max(0, 50 - daysCompleted); natural-number subtraction is that max. -/
def getRemainingDays (s : BudgetState) (today : ℤ) : ℕ :=
  match s with
  | none => 50
  | some c => 50 - calculateDaysCompleted c.startDate today

/-- BudgetManager.topupBudget: requires a config, a top-up of at least 1000 (a
    falsy amount is subsumed by the minimum check) and a remaining-days window
    greater than 0; on success adds the amount to the total budget and
    recomputes dailyAmount as the new total divided by 50.  Failures throw
    before any mutation, so the paired state is unchanged. -/
def topupBudget (s : BudgetState) (additionalAmount : ℚ) (today : ℤ) :
    Except BudgetError Unit × BudgetState :=
  match s with
  | none => (.error .noConfig, none)
  | some c =>
      if additionalAmount < 1000 then (.error .validation, some c)
      else if getRemainingDays (some c) today = 0 then (.error .policy, some c)
      else
        (.ok (), some { c with totalBudget := c.totalBudget + additionalAmount
                               dailyAmount := (c.totalBudget + additionalAmount) / 50 })

/-- BudgetManager.recordInvestment: returns false (no mutation, no throw) when
    unconfigured; throws when amount exceeds the available amount; otherwise
    adds the amount to usedAmount and returns true. -/
def recordInvestment (s : BudgetState) (amount : ℚ) :
    Except BudgetError Bool × BudgetState :=
  match s with
  | none => (.ok false, none)
  | some c =>
      if amount > getAvailableAmount (some c) then
        (.error .insufficientBudget, some c)
      else
        (.ok true, some { c with usedAmount := c.usedAmount + amount })

/-- The allocation record built by BudgetManager.calculateProfitAllocation.
    taxType is modelled as the Boolean isSTCG; the taxRate field holds
    taxRate * 100 exactly as the source stores it. -/
structure ProfitAllocation where
  totalProfit : ℚ
  isSTCG : Bool
  taxRate : ℚ
  taxAmount : ℚ
  brokerageAmount : ℚ
  reinvestmentAmount : ℚ
  netAmount : ℚ
  holdingPeriod : ℤ

/-- BudgetManager.calculateProfitAllocation: null for a non-positive profit;
    otherwise 15% STCG tax for holding periods of at most 365 days or 12.5%
    LTCG tax beyond, 5% brokerage, 80% reinvestment, and
    net = profit - tax - brokerage. -/
def calculateProfitAllocation (profit : ℚ) (holdingPeriod : ℤ) : Option ProfitAllocation :=
  if profit ≤ 0 then none
  else
    let isSTCG := holdingPeriod ≤ 365
    let taxRate : ℚ := if isSTCG then 15/100 else 125/1000
    let brokerageRate : ℚ := 5/100
    let reinvestmentRate : ℚ := 80/100
    let taxAmount := profit * taxRate
    let brokerageAmount := profit * brokerageRate
    let reinvestmentAmount := profit * reinvestmentRate
    some { totalProfit := profit
           isSTCG := decide isSTCG
           taxRate := taxRate * 100
           taxAmount := taxAmount
           brokerageAmount := brokerageAmount
           reinvestmentAmount := reinvestmentAmount
           netAmount := profit - taxAmount - brokerageAmount
           holdingPeriod := holdingPeriod }

/-- BudgetManager.addProfitToReinvestment: returns false (no mutation) when
    unconfigured or when the allocation is null; otherwise adds the
    reinvestment amount to reinvestedProfit. -/
def addProfitToReinvestment (s : BudgetState) (alloc : Option ProfitAllocation) :
    Bool × BudgetState :=
  match s, alloc with
  | none, _ => (false, none)
  | some c, none => (false, some c)
  | some c, some a =>
      (true, some { c with reinvestedProfit := c.reinvestedProfit + a.reinvestmentAmount })

/-- The budget accounting invariant of the spec, stated through the source's
    own getters so that it is meaningful in both budget states. -/
def budgetInvariant (s : BudgetState) : Prop :=
  getAvailableAmount s = getTotalBudget s - getUsedAmount s + getReinvestedProfit s

/-- An etfs-table row as consumed by the strategy: id, cmp, dma_20 and the
    deviation added by calculateRankings (ignored on input rows). -/
structure ETFRec where
  id : ℕ
  cmp : ℚ
  dma20 : ℚ
  deviation : ℚ

/-- A ranked entry: the ETF (with its deviation filled in) and its 1-based
    rank after the ascending sort. -/
structure RankedETF where
  etf : ETFRec
  rank : ℕ

/-- The comparator of TradingStrategy.calculateRankings: ascending by
    deviation (the JS comparator a.deviation - b.deviation). -/
def devLE (a b : ETFRec) : Bool := decide (a.deviation ≤ b.deviation)

/-- The final map of calculateRankings: rank = index + 1, written with an
    explicit rank counter. -/
def attachRanks : List ETFRec → ℕ → List RankedETF
  | [], _ => []
  | e :: rest, rank => ⟨e, rank⟩ :: attachRanks rest (rank + 1)

/-- TradingStrategy.calculateRankings (pure core): recompute each deviation
    from cmp and dma_20, sort ascending by deviation, and assign ranks
    index + 1.  Persisting the ranking rows is external I/O. -/
def calculateRankings (etfs : List ETFRec) : List RankedETF :=
  let etfsWithDeviations := etfs.map fun e =>
    { e with deviation := calculateDeviation e.cmp e.dma20 }
  attachRanks (etfsWithDeviations.mergeSort devLE) 1

/-- A holdings row joined with its ETF's current price, as returned by
    getCurrentHoldings: etf_id, buy_price, quantity, date_purchased and the
    joined etfs.cmp. -/
structure Holding where
  etf_id : ℕ
  buy_price : ℚ
  quantity : ℤ
  date_purchased : ℤ
  etfs_cmp : ℚ

/-- TradingStrategy.calculateRecommendedQuantity: the default quantity when
    the daily budget amount is 0 or unset (getDailyAmount returns 0 when the
    budget is unconfigured), else max(1, floor(dailyAmount / price)).  Prices
    are positive (validateETFData rejects cmp of at most 0), which keeps the
    rational division total where the JS division never sees 0. -/
def calculateRecommendedQuantity (cfg : StrategyConfig) (dailyAmount price : ℚ) : ℤ :=
  if dailyAmount = 0 then cfg.defaultQuantity
  else max 1 ⌊dailyAmount / price⌋

/-- One entry of the eligibleETFs array built by determineBuyAction: the ETF,
    its recommended quantity and its rank i + 1 in the ranked list. -/
structure BuyOption where
  etf : ETFRec
  quantity : ℤ
  rank : ℕ

instance : Inhabited BuyOption := ⟨⟨⟨0, 0, 0, 0⟩, 0, 0⟩⟩

/-- The buy decision returned by determineBuyAction: MULTIPLE_OPTIONS with the
    eligible list and its default option, or AVERAGE with the ETF to average
    into and its quantity. -/
inductive BuyDecision where
  | multipleOptions (options : List BuyOption) (defaultOption : BuyOption)
  | average (etf : ETFRec) (quantity : ℤ)

/-- The first loop of determineBuyAction, with a rank counter replacing the
    array index: collect every ETF of the list that is not currently held,
    annotated with its recommended quantity and rank. -/
def buildEligible (cfg : StrategyConfig) (dailyAmount : ℚ) :
    List ETFRec → List ℕ → ℕ → List BuyOption
  | [], _, _ => []
  | e :: rest, heldETFIds, rank =>
      if e.id ∈ heldETFIds then buildEligible cfg dailyAmount rest heldETFIds (rank + 1)
      else ⟨e, calculateRecommendedQuantity cfg dailyAmount e.cmp, rank⟩ ::
        buildEligible cfg dailyAmount rest heldETFIds (rank + 1)

/-- The second loop of determineBuyAction (averaging down): scan the holdings
    in order, skip a holding whose ETF is not in the ranked list, and return
    an AVERAGE decision for the first holding whose loss percent is at most
    the averaging threshold. -/
def findAveragingOption (cfg : StrategyConfig) (dailyAmount : ℚ)
    (rankedETFs : List ETFRec) : List Holding → Option BuyDecision
  | [] => none
  | h :: rest =>
      match rankedETFs.find? fun e => e.id == h.etf_id with
      | none => findAveragingOption cfg dailyAmount rankedETFs rest
      | some e =>
          if calculatePercentageChange h.buy_price e.cmp ≤ cfg.averagingLossThreshold then
            some (.average e (calculateRecommendedQuantity cfg dailyAmount e.cmp))
          else findAveragingOption cfg dailyAmount rankedETFs rest

/-- TradingStrategy.determineBuyAction: the eligible not-held ETFs among the
    top maxRankToConsider ranked ETFs (the loop bound min(maxRank, length) is
    the take); if any exist return MULTIPLE_OPTIONS with the first as default
    option, otherwise fall back to the averaging scan. -/
def determineBuyAction (cfg : StrategyConfig) (dailyAmount : ℚ) (rankedETFs : List ETFRec)
    (heldETFIds : List ℕ) (holdings : List Holding) : Option BuyDecision :=
  let eligibleETFs :=
    buildEligible cfg dailyAmount (rankedETFs.take cfg.maxRankToConsider) heldETFIds 1
  match eligibleETFs with
  | opt :: rest => some (.multipleOptions (opt :: rest) opt)
  | [] => findAveragingOption cfg dailyAmount rankedETFs holdings

/-- The sell decision of determineSellAction: the chosen holding and its
    profit percent. -/
structure SellDecision where
  holding : Holding
  profitPercent : ℚ

/-- The profit filter of determineSellAction: profit percent strictly above
    the threshold. -/
def isProfitable (cfg : StrategyConfig) (h : Holding) : Bool :=
  decide (cfg.profitThreshold < calculatePercentageChange h.buy_price h.etfs_cmp)

/-- The LIFO comparator of determineSellAction: descending by purchase date
    (the JS comparator new Date(b) - new Date(a)). -/
def dateDescLE (a b : Holding) : Bool := decide (b.date_purchased ≤ a.date_purchased)

/-- TradingStrategy.determineSellAction: keep the holdings whose profit
    percent exceeds the threshold, return null when none qualify, otherwise
    sort descending by purchase date and sell the first. -/
def determineSellAction (cfg : StrategyConfig) (holdings : List Holding) :
    Option SellDecision :=
  let profitableHoldings := holdings.filter (isProfitable cfg)
  if profitableHoldings.isEmpty then none
  else
    match profitableHoldings.mergeSort dateDescLE with
    | [] => none
    | h :: _ => some ⟨h, calculatePercentageChange h.buy_price h.etfs_cmp⟩

/-- Steps from a day to the next weekday strictly after it, bounding the
    termination of the calculateEndDate loop: 2 from a Saturday, 1 from a
    Sunday, 0 otherwise. -/
def weekdayGap (d : ℤ) : ℕ :=
  if d % 7 = 6 then 2 else if d % 7 = 0 then 1 else 0

/-- The while loop of Utils.calculateEndDate: advance one calendar day at a
    time, counting only weekdays, until the requested number of trading days
    has been added. -/
def endDateLoop (currentDate : ℤ) (daysAdded tradingDays : ℕ) : ℤ :=
  if h : daysAdded < tradingDays then
    if hw : isWeekday (currentDate + 1) then
      endDateLoop (currentDate + 1) (daysAdded + 1) tradingDays
    else
      endDateLoop (currentDate + 1) daysAdded tradingDays
  else currentDate
termination_by (tradingDays - daysAdded) * 3 + weekdayGap (currentDate + 1)
decreasing_by
  · have h2 : weekdayGap (currentDate + 1 + 1) ≤ 2 := by
      simp only [weekdayGap]
      split_ifs <;> omega
    omega
  · have h2 : getDay (currentDate + 1) = 0 ∨ getDay (currentDate + 1) = 6 := by
      by_contra hcon
      push_neg at hcon
      exact hw ⟨hcon.1, hcon.2⟩
    simp only [getDay] at h2
    simp only [weekdayGap]
    split_ifs <;> omega

/-- Utils.calculateEndDate: the date reached after the given number of
    trading days, skipping weekends. -/
def calculateEndDate (startDate : ℤ) (tradingDays : ℕ) : ℤ :=
  endDateLoop startDate 0 tradingDays

/-- The number of weekdays in the inclusive day interval, the reference count
    for the day-counter claims. -/
def weekdayCount (start today : ℤ) : ℕ :=
  if h : start ≤ today then
    (if isWeekday start then 1 else 0) + weekdayCount (start + 1) today
  else 0
termination_by (today + 1 - start).toNat
decreasing_by omega

end ETFApp

namespace ETFApp

lemma budgetInvariant_all (s : BudgetState) : budgetInvariant s := by
  cases s with
  | none => simp [budgetInvariant, getAvailableAmount, getTotalBudget, getUsedAmount,
      getReinvestedProfit]
  | some c => rfl

/-- C3: the available amount always equals
    totalBudget - usedAmount + reinvestedProfit, in particular after each of
    the budget mutations setBudget, topupBudget, recordInvestment and
    addProfitToReinvestment. -/
theorem available_invariant :
    (∀ s : BudgetState, getAvailableAmount s
        = getTotalBudget s - getUsedAmount s + getReinvestedProfit s) ∧
      (∀ (tb : ℚ) (sd : Option ℤ) (s' : BudgetState),
        setBudget tb sd = Except.ok s' → getAvailableAmount s'
          = getTotalBudget s' - getUsedAmount s' + getReinvestedProfit s') ∧
      (∀ (s : BudgetState) (amt : ℚ) (today : ℤ) (r : Except BudgetError Unit)
          (s' : BudgetState),
        topupBudget s amt today = (r, s') → getAvailableAmount s'
          = getTotalBudget s' - getUsedAmount s' + getReinvestedProfit s') ∧
      (∀ (s : BudgetState) (amt : ℚ) (r : Except BudgetError Bool) (s' : BudgetState),
        recordInvestment s amt = (r, s') → getAvailableAmount s'
          = getTotalBudget s' - getUsedAmount s' + getReinvestedProfit s') ∧
      (∀ (s : BudgetState) (alloc : Option ProfitAllocation) (r : Bool) (s' : BudgetState),
        addProfitToReinvestment s alloc = (r, s') → getAvailableAmount s'
          = getTotalBudget s' - getUsedAmount s' + getReinvestedProfit s') := by
  refine ⟨fun s => budgetInvariant_all s, ?_, ?_, ?_, ?_⟩
  · exact fun _ _ s' _ => budgetInvariant_all s'
  · exact fun _ _ _ _ s' _ => budgetInvariant_all s'
  · exact fun _ _ _ s' _ => budgetInvariant_all s'
  · exact fun _ _ _ s' _ => budgetInvariant_all s'

/-- C3 witness: the invariant evaluated after a concrete successful setBudget. -/
theorem available_invariant_witness :
    getAvailableAmount (some ⟨50000, 1000, 0, 0, 0⟩)
      = getTotalBudget (some ⟨50000, 1000, 0, 0, 0⟩)
        - getUsedAmount (some ⟨50000, 1000, 0, 0, 0⟩)
        + getReinvestedProfit (some ⟨50000, 1000, 0, 0, 0⟩) :=
  available_invariant.2.1 50000 (some 0) _ (by norm_num [setBudget])

/-- C4: recordInvestment on a configured budget fails with the
    insufficient-budget error and leaves the state unchanged when the amount
    exceeds the available amount; otherwise it adds exactly the amount to
    usedAmount; and after any succeeding recordInvestment the used amount is
    at most totalBudget + reinvestedProfit. -/
theorem recordInvestment_spec :
    (∀ (c : BudgetConfig) (amount : ℚ), getAvailableAmount (some c) < amount →
        recordInvestment (some c) amount = (Except.error BudgetError.insufficientBudget, some c)) ∧
      (∀ (c : BudgetConfig) (amount : ℚ), amount ≤ getAvailableAmount (some c) →
        recordInvestment (some c) amount
          = (Except.ok true, some { c with usedAmount := c.usedAmount + amount })) ∧
      (∀ (s : BudgetState) (amount : ℚ) (s' : BudgetState),
        recordInvestment s amount = (Except.ok true, s') →
        getUsedAmount s' ≤ getTotalBudget s' + getReinvestedProfit s') := by
  refine ⟨?_, ?_, ?_⟩
  · intro c amount h
    simp only [recordInvestment, gt_iff_lt]
    rw [if_pos h]
  · intro c amount h
    simp only [recordInvestment, gt_iff_lt]
    rw [if_neg (not_lt.mpr h)]
  · intro s amount s' h
    cases s with
    | none => simp [recordInvestment] at h
    | some c =>
        simp only [recordInvestment, gt_iff_lt] at h
        split_ifs at h with hlt
        · simp at h
        · have hle : amount ≤ getAvailableAmount (some c) := not_lt.mp hlt
          obtain ⟨-, h2⟩ := Prod.mk.inj h
          subst h2
          simp only [getAvailableAmount] at hle
          simp only [getUsedAmount, getTotalBudget, getReinvestedProfit]
          linarith

/-- C4 witness: a concrete rejected over-budget investment. -/
theorem recordInvestment_spec_witness :
    recordInvestment (some ⟨5000, 100, 0, 0, 0⟩) 6000
      = (Except.error BudgetError.insufficientBudget, some ⟨5000, 100, 0, 0, 0⟩) :=
  recordInvestment_spec.1 _ 6000 (by norm_num [getAvailableAmount])

/-- C5 (amended): calculateProfitAllocation is null exactly for non-positive
    profit; for positive profit it taxes at rate 0.15 for holding periods of at
    most 365 days and 0.125 beyond, takes 5% brokerage and 80% reinvestment,
    with net = profit - tax - brokerage; for profit 1000 held 400 days this
    gives tax 125, brokerage 50, reinvestment 800, net 825, where
    net + tax + brokerage = 1000 and tax + brokerage + reinvestment = 975,
    leaving 2.5% of a long-term profit unaccounted. -/
theorem calculateProfitAllocation_spec :
    (∀ (profit : ℚ) (hp : ℤ), profit ≤ 0 → calculateProfitAllocation profit hp = none) ∧
      (∀ (profit : ℚ) (hp : ℤ), 0 < profit →
        calculateProfitAllocation profit hp
          = some { totalProfit := profit
                   isSTCG := decide (hp ≤ 365)
                   taxRate := (if hp ≤ 365 then (15 : ℚ)/100 else 125/1000) * 100
                   taxAmount := profit * (if hp ≤ 365 then (15 : ℚ)/100 else 125/1000)
                   brokerageAmount := profit * (5/100)
                   reinvestmentAmount := profit * (80/100)
                   netAmount := profit - profit * (if hp ≤ 365 then (15 : ℚ)/100 else 125/1000)
                     - profit * (5/100)
                   holdingPeriod := hp }) ∧
      (∃ a : ProfitAllocation, calculateProfitAllocation 1000 400 = some a ∧
        a.isSTCG = false ∧ a.taxAmount = 125 ∧ a.brokerageAmount = 50 ∧
        a.reinvestmentAmount = 800 ∧ a.netAmount = 825 ∧
        a.netAmount + a.taxAmount + a.brokerageAmount = 1000 ∧
        a.taxAmount + a.brokerageAmount + a.reinvestmentAmount = 975) := by
  refine ⟨?_, ?_, ?_⟩
  · intro profit hp h
    simp only [calculateProfitAllocation, if_pos h]
  · intro profit hp h
    simp only [calculateProfitAllocation, if_neg (not_le.mpr h)]
  · refine ⟨⟨1000, false, 25/2, 125, 50, 800, 825, 400⟩, ?_, rfl, rfl, rfl, rfl, rfl,
      by norm_num, by norm_num⟩
    norm_num [calculateProfitAllocation, ProfitAllocation.mk.injEq]

/-- C5 counterexample: at profit 1000 and holding period 400 days the code's
    allocation has netAmount + taxAmount + brokerageAmount equal to 1000, not
    975 as claimed (975 is taxAmount + brokerageAmount + reinvestmentAmount). -/
theorem calculateProfitAllocation_sum_counterexample :
    calculateProfitAllocation 1000 400
        = some ⟨1000, false, 25/2, 125, 50, 800, 825, 400⟩ ∧
      (825 : ℚ) + 125 + 50 = 1000 ∧ ¬ ((825 : ℚ) + 125 + 50 = 975) := by
  refine ⟨?_, by norm_num, by norm_num⟩
  norm_num [calculateProfitAllocation, ProfitAllocation.mk.injEq]

/-- C5 witness: the short-term allocation of the spec's first scenario,
    profit 1000 held 100 days. -/
theorem calculateProfitAllocation_spec_witness :
    calculateProfitAllocation 1000 100
      = some ⟨1000, true, 15, 150, 50, 800, 800, 100⟩ := by
  have h := calculateProfitAllocation_spec.2.1 1000 100 (by norm_num)
  rw [h]
  norm_num [ProfitAllocation.mk.injEq]

/-- C10: recordInvestment against an unconfigured budget returns false for
    every amount, throwing nothing and leaving the state unconfigured. -/
theorem recordInvestment_unconfigured (amount : ℚ) :
    recordInvestment none amount = (Except.ok false, none) := rfl

/-- C7: for every positive price the recommended quantity is
    max(1, floor(dailyAmount / price)) when a nonzero daily amount is set and
    the configured default quantity 1 when the daily amount is 0 or unset;
    price 100 with daily amount 250 gives quantity 2. -/
theorem calculateRecommendedQuantity_spec :
    (∀ dailyAmount price : ℚ, 0 < price → dailyAmount ≠ 0 →
        calculateRecommendedQuantity defaultConfig dailyAmount price
          = max 1 ⌊dailyAmount / price⌋) ∧
      (∀ price : ℚ, 0 < price → calculateRecommendedQuantity defaultConfig 0 price = 1) ∧
      calculateRecommendedQuantity defaultConfig 250 100 = 2 := by
  refine ⟨?_, ?_, ?_⟩
  · intro dailyAmount price _ h
    simp only [calculateRecommendedQuantity, if_neg h]
  · intro price _
    simp [calculateRecommendedQuantity, defaultConfig]
  · simp only [calculateRecommendedQuantity]
    norm_num

/-- C7 witness: the formula branch evaluated at price 100, daily amount 250. -/
theorem calculateRecommendedQuantity_spec_witness :
    calculateRecommendedQuantity defaultConfig 250 100 = max 1 ⌊(250 : ℚ) / 100⌋ :=
  calculateRecommendedQuantity_spec.1 250 100 (by norm_num) (by norm_num)

/-- C8: topupBudget on a configured budget fails with a validation error for
    amounts below 1000 and with a policy error when no trading days remain,
    leaving the whole budget state unchanged in both cases; on success it adds
    the amount to the total budget and recomputes dailyAmount as the new total
    divided by 50. -/
theorem topupBudget_spec :
    (∀ (c : BudgetConfig) (amt : ℚ) (today : ℤ), amt < 1000 →
        topupBudget (some c) amt today = (Except.error BudgetError.validation, some c)) ∧
      (∀ (c : BudgetConfig) (amt : ℚ) (today : ℤ), ¬ amt < 1000 →
        getRemainingDays (some c) today = 0 →
        topupBudget (some c) amt today = (Except.error BudgetError.policy, some c)) ∧
      (∀ (c : BudgetConfig) (amt : ℚ) (today : ℤ), ¬ amt < 1000 →
        getRemainingDays (some c) today ≠ 0 →
        topupBudget (some c) amt today
          = (Except.ok (), some { c with
              totalBudget := c.totalBudget + amt,
              dailyAmount := (c.totalBudget + amt) / 50 })) := by
  refine ⟨?_, ?_, ?_⟩
  · intro c amt today h
    simp only [topupBudget]
    rw [if_pos h]
  · intro c amt today h1 h2
    simp only [topupBudget]
    rw [if_neg h1, if_pos h2]
  · intro c amt today h1 h2
    simp only [topupBudget]
    rw [if_neg h1, if_neg h2]

/-- C8 witness: a concrete below-minimum top-up is rejected without touching
    the configuration. -/
theorem topupBudget_spec_witness :
    topupBudget (some ⟨50000, 1000, 0, 0, 0⟩) 500 0
      = (Except.error BudgetError.validation, some ⟨50000, 1000, 0, 0, 0⟩) :=
  topupBudget_spec.1 _ 500 0 (by norm_num)

lemma devLE_trans (a b c : ETFRec) (h1 : devLE a b = true) (h2 : devLE b c = true) :
    devLE a c = true := by
  simp only [devLE, decide_eq_true_eq] at *
  exact le_trans h1 h2

lemma devLE_total (a b : ETFRec) : (devLE a b || devLE b a) = true := by
  simp only [devLE, Bool.or_eq_true, decide_eq_true_eq]
  exact le_total a.deviation b.deviation

lemma attachRanks_map_etf (l : List ETFRec) : ∀ k : ℕ,
    (attachRanks l k).map RankedETF.etf = l := by
  induction l with
  | nil => intro k; rfl
  | cons e rest ih => intro k; simp only [attachRanks, List.map_cons, ih]

lemma attachRanks_map_rank (l : List ETFRec) : ∀ k : ℕ,
    (attachRanks l k).map RankedETF.rank = List.range' k l.length := by
  induction l with
  | nil => intro k; rfl
  | cons e rest ih =>
      intro k
      simp only [attachRanks, List.map_cons, ih, List.length_cons, List.range'_succ]

lemma attachRanks_rank_lb (r : RankedETF) (l : List ETFRec) : ∀ k : ℕ,
    r ∈ attachRanks l k → k ≤ r.rank := by
  induction l with
  | nil => intro k h; simp [attachRanks] at h
  | cons e rest ih =>
      intro k h
      rcases List.mem_cons.mp h with rfl | h2
      · exact le_refl _
      · exact le_trans (Nat.le_succ k) (ih (k + 1) h2)

lemma attachRanks_mem_etf (r : RankedETF) (l : List ETFRec) (k : ℕ)
    (h : r ∈ attachRanks l k) : r.etf ∈ l := by
  rw [← attachRanks_map_etf l k]
  exact List.mem_map_of_mem RankedETF.etf h

lemma attachRanks_rank_one_min (s : List ETFRec)
    (hs : List.Pairwise (fun a b : ETFRec => a.deviation ≤ b.deviation) s)
    {r : RankedETF} (hr : r ∈ attachRanks s 1) (h1 : r.rank = 1)
    {r' : RankedETF} (hr' : r' ∈ attachRanks s 1) :
    r.etf.deviation ≤ r'.etf.deviation := by
  cases s with
  | nil => simp [attachRanks] at hr
  | cons e t =>
      have hpc := List.pairwise_cons.mp hs
      rcases List.mem_cons.mp hr with rfl | hr2
      · rcases List.mem_cons.mp hr' with rfl | hr2'
        · exact le_refl _
        · exact hpc.1 _ (attachRanks_mem_etf r' t 2 hr2')
      · have := attachRanks_rank_lb r t 2 hr2
        omega

lemma mergeSort_dev_sorted (l : List ETFRec) :
    List.Pairwise (fun a b : ETFRec => a.deviation ≤ b.deviation) (l.mergeSort devLE) := by
  have hs := List.sorted_mergeSort devLE_trans devLE_total l
  refine hs.imp ?_
  intro a b hab
  simpa [devLE] using hab

/-- C6: every deviation equals (cmp - dma) / dma * 100 with deviation 0 when
    dma is 0; the ranking is a permutation of the deviation-annotated input,
    sorted ascending by deviation, with ranks exactly 1..N in order and rank 1
    carrying the minimum deviation. -/
theorem calculateRankings_spec :
    (∀ cmp dma : ℚ, calculateDeviation cmp dma = (cmp - dma) / dma * 100 ∧
        (dma = 0 → calculateDeviation cmp dma = 0)) ∧
      (∀ etfs : List ETFRec,
        ((calculateRankings etfs).map RankedETF.etf).Perm
          (etfs.map fun e => { e with deviation := calculateDeviation e.cmp e.dma20 })) ∧
      (∀ etfs : List ETFRec,
        (calculateRankings etfs).map RankedETF.rank = List.range' 1 etfs.length) ∧
      (∀ etfs : List ETFRec,
        List.Pairwise (fun a b : RankedETF => a.etf.deviation ≤ b.etf.deviation)
          (calculateRankings etfs)) ∧
      (∀ (etfs : List ETFRec) (r : RankedETF), r ∈ calculateRankings etfs → r.rank = 1 →
        ∀ r' ∈ calculateRankings etfs, r.etf.deviation ≤ r'.etf.deviation) := by
  refine ⟨?_, ?_, ?_, ?_, ?_⟩
  · intro cmp dma
    constructor
    · by_cases h : dma = 0
      · subst h; simp [calculateDeviation]
      · simp [calculateDeviation, h]
    · intro h; simp [calculateDeviation, h]
  · intro etfs
    simp only [calculateRankings]
    rw [attachRanks_map_etf]
    exact List.mergeSort_perm _ _
  · intro etfs
    simp only [calculateRankings]
    rw [attachRanks_map_rank]
    congr 1
    rw [(List.mergeSort_perm _ _).length_eq, List.length_map]
  · intro etfs
    simp only [calculateRankings]
    exact (@List.pairwise_map RankedETF ETFRec RankedETF.etf
        (fun a b => a.deviation ≤ b.deviation) (attachRanks _ 1)).mp
      (by rw [attachRanks_map_etf]; exact mergeSort_dev_sorted _)
  · intro etfs r hr h1 r' hr'
    simp only [calculateRankings] at hr hr'
    exact attachRanks_rank_one_min _ (mergeSort_dev_sorted _) hr h1 hr'

/-- C6 witness: the defensive dma = 0 branch of the deviation formula. -/
theorem calculateRankings_spec_witness : calculateDeviation 100 0 = 0 :=
  (calculateRankings_spec.1 100 0).2 rfl

lemma pctChange_eq (o n : ℚ) : calculatePercentageChange o n = (n - o) / o * 100 := by
  by_cases h : o = 0
  · subst h; simp [calculatePercentageChange]
  · simp [calculatePercentageChange, h]

lemma dateDescLE_trans (a b c : Holding) (h1 : dateDescLE a b = true)
    (h2 : dateDescLE b c = true) : dateDescLE a c = true := by
  simp only [dateDescLE, decide_eq_true_eq] at *
  exact le_trans h2 h1

lemma dateDescLE_total (a b : Holding) : (dateDescLE a b || dateDescLE b a) = true := by
  simp only [dateDescLE, Bool.or_eq_true, decide_eq_true_eq]
  exact le_total b.date_purchased a.date_purchased

/-- C2: determineSellAction returns null when no active holding has profit
    percent strictly above 6; otherwise (some holding exceeds the threshold)
    it does return exactly one candidate, a qualifying holding whose purchase
    date is maximal among the holdings above the 6% threshold (LIFO). -/
theorem determineSellAction_spec :
    (∀ holdings : List Holding,
        (∀ h ∈ holdings, (h.etfs_cmp - h.buy_price) / h.buy_price * 100 ≤ 6) →
        determineSellAction defaultConfig holdings = none) ∧
      (∀ holdings : List Holding,
        (∃ h ∈ holdings, 6 < (h.etfs_cmp - h.buy_price) / h.buy_price * 100) →
        ∃ sd : SellDecision, determineSellAction defaultConfig holdings = some sd) ∧
      (∀ (holdings : List Holding) (sd : SellDecision),
        determineSellAction defaultConfig holdings = some sd →
        sd.holding ∈ holdings ∧
          6 < (sd.holding.etfs_cmp - sd.holding.buy_price) / sd.holding.buy_price * 100 ∧
          ∀ h ∈ holdings, 6 < (h.etfs_cmp - h.buy_price) / h.buy_price * 100 →
            h.date_purchased ≤ sd.holding.date_purchased) := by
  refine ⟨?_, ?_, ?_⟩
  · intro holdings hall
    have hfil : holdings.filter (isProfitable defaultConfig) = [] := by
      rw [List.filter_eq_nil_iff]
      intro h hh
      simp only [isProfitable, defaultConfig, decide_eq_true_eq, not_lt, pctChange_eq]
      exact hall h hh
    simp [determineSellAction, hfil]
  · rintro holdings ⟨h, hh, hp⟩
    have hP : h ∈ holdings.filter (isProfitable defaultConfig) :=
      List.mem_filter.mpr ⟨hh, by
        simp only [isProfitable, defaultConfig, decide_eq_true_eq, pctChange_eq]
        exact hp⟩
    have hne : ¬ (holdings.filter (isProfitable defaultConfig)).isEmpty = true := by
      rw [List.isEmpty_iff]
      intro he
      rw [he] at hP
      simp at hP
    simp only [determineSellAction]
    rw [if_neg hne]
    cases hms : (holdings.filter (isProfitable defaultConfig)).mergeSort dateDescLE with
    | nil =>
        have hp2 := List.mergeSort_perm (holdings.filter (isProfitable defaultConfig))
          dateDescLE
        rw [hms] at hp2
        rw [List.isEmpty_iff] at hne
        exact absurd (List.Perm.nil_eq hp2).symm hne
    | cons h0 t => exact ⟨_, rfl⟩
  · intro holdings sd hsd
    simp only [determineSellAction] at hsd
    by_cases hemp : (holdings.filter (isProfitable defaultConfig)).isEmpty = true
    · rw [if_pos hemp] at hsd
      exact absurd hsd (by simp)
    · rw [if_neg hemp] at hsd
      cases hms : (holdings.filter (isProfitable defaultConfig)).mergeSort dateDescLE with
      | nil =>
          have hp := List.mergeSort_perm (holdings.filter (isProfitable defaultConfig))
            dateDescLE
          rw [hms] at hp
          rw [List.isEmpty_iff] at hemp
          exact absurd (List.Perm.nil_eq hp).symm hemp
      | cons h t =>
          rw [hms] at hsd
          obtain rfl : (⟨h, calculatePercentageChange h.buy_price h.etfs_cmp⟩ : SellDecision)
              = sd := Option.some.inj hsd
          have hp := List.mergeSort_perm (holdings.filter (isProfitable defaultConfig))
            dateDescLE
          rw [hms] at hp
          have hmem : h ∈ holdings.filter (isProfitable defaultConfig) :=
            hp.mem_iff.mp (List.mem_cons_self h t)
          have hmf := List.mem_filter.mp hmem
          refine ⟨hmf.1, ?_, ?_⟩
          · have h2 := hmf.2
            simp only [isProfitable, defaultConfig, decide_eq_true_eq, pctChange_eq] at h2
            exact h2
          · intro h' hh' hp'
            have h'P : h' ∈ holdings.filter (isProfitable defaultConfig) :=
              List.mem_filter.mpr ⟨hh', by
                simp only [isProfitable, defaultConfig, decide_eq_true_eq, pctChange_eq]
                exact hp'⟩
            have hsort := List.sorted_mergeSort dateDescLE_trans dateDescLE_total
              (holdings.filter (isProfitable defaultConfig))
            rw [hms] at hsort
            rcases List.mem_cons.mp (hp.mem_iff.mpr h'P) with rfl | hmem'
            · exact le_refl _
            · have hd := (List.pairwise_cons.mp hsort).1 h' hmem'
              simpa [dateDescLE] using hd

/-- C2 witness: a single holding bought at 100 and now at 110 (10% profit) is
    selected for sale. -/
theorem determineSellAction_spec_witness :
    (⟨⟨1, 100, 1, 10, 110⟩, 10⟩ : SellDecision).holding ∈ [(⟨1, 100, 1, 10, 110⟩ : Holding)] ∧
      6 < ((110 : ℚ) - 100) / 100 * 100 ∧
      ∀ h ∈ [(⟨1, 100, 1, 10, 110⟩ : Holding)],
        6 < (h.etfs_cmp - h.buy_price) / h.buy_price * 100 →
        h.date_purchased ≤ (10 : ℤ) :=
  determineSellAction_spec.2.2 [⟨1, 100, 1, 10, 110⟩] ⟨⟨1, 100, 1, 10, 110⟩, 10⟩ (by
    simp only [determineSellAction, defaultConfig]
    rw [show List.filter (isProfitable ⟨5, -(5/2), 6, 1⟩) [(⟨1, 100, 1, 10, 110⟩ : Holding)]
        = [⟨1, 100, 1, 10, 110⟩] by
      simp [List.filter, isProfitable, calculatePercentageChange]
      norm_num]
    simp [List.mergeSort_singleton, calculatePercentageChange]
    norm_num)

lemma buildEligible_map_etf (cfg : StrategyConfig) (daily : ℚ) (held : List ℕ)
    (l : List ETFRec) : ∀ k : ℕ,
    (buildEligible cfg daily l held k).map BuyOption.etf
      = l.filter fun e => decide (e.id ∉ held) := by
  induction l with
  | nil => intro k; rfl
  | cons e rest ih =>
      intro k
      by_cases h : e.id ∈ held
      · simp [buildEligible, h, List.filter_cons, ih]
      · simp [buildEligible, h, List.filter_cons, ih]

lemma buildEligible_eq_nil (cfg : StrategyConfig) (daily : ℚ) (held : List ℕ)
    (l : List ETFRec) : ∀ k : ℕ,
    buildEligible cfg daily l held k = [] ↔ ∀ e ∈ l, e.id ∈ held := by
  induction l with
  | nil => intro k; simp [buildEligible]
  | cons e rest ih =>
      intro k
      by_cases h : e.id ∈ held
      · simp [buildEligible, h, ih (k + 1)]
      · simp [buildEligible, h]

/-- C1: whenever some ETF in the top 5 of the ranking is not currently held,
    determineBuyAction returns the MULTIPLE_OPTIONS decision whose options
    are exactly the not-held ETFs among the top 5 in rank order, with the
    first (best-ranked) as default option; an AVERAGE decision can only be
    returned when every top-5 ETF is held; and one call never produces both
    decision kinds. -/
theorem determineBuyAction_spec :
    (∀ (dailyAmount : ℚ) (rankedETFs : List ETFRec) (heldETFIds : List ℕ)
        (holdings : List Holding),
      (∃ e ∈ rankedETFs.take 5, e.id ∉ heldETFIds) →
      determineBuyAction defaultConfig dailyAmount rankedETFs heldETFIds holdings
          = some (BuyDecision.multipleOptions
              (buildEligible defaultConfig dailyAmount (rankedETFs.take 5) heldETFIds 1)
              (buildEligible defaultConfig dailyAmount (rankedETFs.take 5) heldETFIds 1).headI)
        ∧ (buildEligible defaultConfig dailyAmount (rankedETFs.take 5) heldETFIds 1).map
              BuyOption.etf
            = (rankedETFs.take 5).filter fun e => decide (e.id ∉ heldETFIds)) ∧
      (∀ (dailyAmount : ℚ) (rankedETFs : List ETFRec) (heldETFIds : List ℕ)
          (holdings : List Holding) (e : ETFRec) (q : ℤ),
        determineBuyAction defaultConfig dailyAmount rankedETFs heldETFIds holdings
            = some (BuyDecision.average e q) →
        ∀ e' ∈ rankedETFs.take 5, e'.id ∈ heldETFIds) ∧
      (∀ (dailyAmount : ℚ) (rankedETFs : List ETFRec) (heldETFIds : List ℕ)
          (holdings : List Holding) (opts : List BuyOption) (d0 : BuyOption)
          (e : ETFRec) (q : ℤ),
        ¬ (determineBuyAction defaultConfig dailyAmount rankedETFs heldETFIds holdings
              = some (BuyDecision.multipleOptions opts d0)
            ∧ determineBuyAction defaultConfig dailyAmount rankedETFs heldETFIds holdings
              = some (BuyDecision.average e q))) := by
  have h5 : defaultConfig.maxRankToConsider = 5 := rfl
  refine ⟨?_, ?_, ?_⟩
  · intro daily ranked held holdings hex
    have hne : buildEligible defaultConfig daily (ranked.take 5) held 1 ≠ [] := by
      rw [Ne, buildEligible_eq_nil]
      push_neg
      obtain ⟨e, he, hid⟩ := hex
      exact ⟨e, he, hid⟩
    cases hB : buildEligible defaultConfig daily (ranked.take 5) held 1 with
    | nil => exact absurd hB hne
    | cons o rest =>
        constructor
        · simp only [determineBuyAction, h5, hB, List.headI]
        · rw [← hB]
          exact buildEligible_map_etf defaultConfig daily held (ranked.take 5) 1
  · intro daily ranked held holdings e q hav e' he'
    simp only [determineBuyAction, h5] at hav
    cases hB : buildEligible defaultConfig daily (ranked.take 5) held 1 with
    | nil => exact (buildEligible_eq_nil defaultConfig daily held (ranked.take 5) 1).mp hB e' he'
    | cons o rest =>
        rw [hB] at hav
        exact BuyDecision.noConfusion (Option.some.inj hav)
  · rintro daily ranked held holdings opts d0 e q ⟨h1, h2⟩
    rw [h1] at h2
    exact BuyDecision.noConfusion (Option.some.inj h2)

/-- C1 witness: with a single unheld ranked ETF the decision is
    MULTIPLE_OPTIONS on that ETF, which is also the default option. -/
theorem determineBuyAction_spec_witness :
    determineBuyAction defaultConfig 0 [⟨1, 10, 10, 0⟩] [] []
        = some (BuyDecision.multipleOptions
            (buildEligible defaultConfig 0 ([(⟨1, 10, 10, 0⟩ : ETFRec)].take 5) [] 1)
            (buildEligible defaultConfig 0 ([(⟨1, 10, 10, 0⟩ : ETFRec)].take 5) [] 1).headI)
      ∧ (buildEligible defaultConfig 0 ([(⟨1, 10, 10, 0⟩ : ETFRec)].take 5) [] 1).map
            BuyOption.etf
          = ([(⟨1, 10, 10, 0⟩ : ETFRec)].take 5).filter fun e => decide (e.id ∉ ([] : List ℕ)) :=
  determineBuyAction_spec.1 0 [⟨1, 10, 10, 0⟩] [] []
    ⟨⟨1, 10, 10, 0⟩, by simp, by simp⟩

lemma daysCompletedLoop_eq (today : ℤ) : ∀ (n : ℕ) (current : ℤ) (acc : ℕ),
    (today + 1 - current).toNat ≤ n → acc ≤ 50 →
    daysCompletedLoop current today acc = min (acc + weekdayCount current today) 50 := by
  intro n
  induction n with
  | zero =>
      intro current acc hn hacc
      have hc : ¬ current ≤ today := by omega
      rw [daysCompletedLoop.eq_def, dif_neg (by omega)]
      rw [weekdayCount.eq_def, dif_neg hc]
      omega
  | succ n ih =>
      intro current acc hn hacc
      rw [daysCompletedLoop.eq_def]
      by_cases hc : current ≤ today
      · by_cases ha : acc < 50
        · rw [dif_pos ⟨hc, ha⟩]
          rw [ih (current + 1) (if isWeekday current then acc + 1 else acc) (by omega)
            (by split_ifs <;> omega)]
          conv_rhs => rw [weekdayCount.eq_def]
          rw [dif_pos hc]
          split_ifs <;> omega
        · rw [dif_neg (by omega)]
          omega
      · rw [dif_neg (by omega)]
        rw [weekdayCount.eq_def, dif_neg hc]
        omega

lemma calculateDaysCompleted_eq (start today : ℤ) :
    calculateDaysCompleted start today = min (weekdayCount start today) 50 := by
  simp only [calculateDaysCompleted]
  by_cases h : start > today
  · rw [if_pos h, weekdayCount.eq_def, dif_neg (by omega)]
    omega
  · rw [if_neg h, daysCompletedLoop_eq today ((today + 1 - start).toNat) start 0 (le_refl _)
      (by omega)]
    omega

lemma calculateEndDate_friday (d : ℤ) (hd : d % 7 = 5) : calculateEndDate d 1 = d + 3 := by
  have h1 : ¬ isWeekday (d + 1) := by
    simp only [isWeekday, getDay]
    omega
  have h2 : ¬ isWeekday (d + 1 + 1) := by
    simp only [isWeekday, getDay]
    omega
  have h3 : isWeekday (d + 1 + 1 + 1) := by
    simp only [isWeekday, getDay]
    omega
  simp only [calculateEndDate]
  rw [endDateLoop.eq_def, dif_pos (by omega : (0 : ℕ) < 1), dif_neg h1]
  rw [endDateLoop.eq_def, dif_pos (by omega : (0 : ℕ) < 1), dif_neg h2]
  rw [endDateLoop.eq_def, dif_pos (by omega : (0 : ℕ) < 1), dif_pos h3]
  rw [endDateLoop.eq_def, dif_neg (by omega : ¬ (0 + 1 : ℕ) < 1)]
  omega

/-- C9: calculateDaysCompleted counts exactly the Monday-to-Friday days from
    the start date through today (capped at 50), returns 0 when the start
    date is after today, never exceeds 50; and calculateEndDate starting on a
    Friday with 1 trading day lands on the following Monday. -/
theorem calendar_spec :
    (∀ start today : ℤ, today < start → calculateDaysCompleted start today = 0) ∧
      (∀ start today : ℤ, calculateDaysCompleted start today ≤ 50) ∧
      (∀ start today : ℤ,
        calculateDaysCompleted start today = min (weekdayCount start today) 50) ∧
      (∀ d : ℤ, d % 7 = 5 → calculateEndDate d 1 = d + 3) := by
  refine ⟨?_, ?_, calculateDaysCompleted_eq, calculateEndDate_friday⟩
  · intro start today h
    simp only [calculateDaysCompleted]
    rw [if_pos (by omega)]
  · intro start today
    rw [calculateDaysCompleted_eq]
    omega

/-- C9 witness: day 5 is a Friday of the integer calendar, and one trading
    day later is day 8, the following Monday. -/
theorem calendar_spec_witness : calculateEndDate 5 1 = 8 :=
  calendar_spec.2.2.2 5 (by norm_num)

end ETFApp
